import Mathlib

/-!
Verification of the transcript-to-question segmentation pipeline of the
InterviewCoder repository: speaker-role normalization, question buffering and
completion heuristics, emission deduplication, the single-flight dispatch
coordinator, and the bounded persisted conversation history.

The definitions below are shallow embeddings of the TypeScript source:
`SpeechToTextHelper` (namespace `Seg`), the main-process dispatch state and
`handleSpeechTranscription` (namespace `Dispatch`), and the conversation
history of `ProcessingHelper` (namespace `Conv`).  JavaScript timestamps are
modelled as `Int` (millisecond clock readings), JavaScript strings as Lean
`String`.
-/

namespace JsStr

/-- Characters treated as whitespace by JavaScript `String.prototype.trim`
and by the regex class `\s`. -/
def jsWhitespaceChar (c : Char) : Bool :=
  let n := c.toNat
  n = 0x20 || n = 0x09 || n = 0x0A || n = 0x0B || n = 0x0C || n = 0x0D ||
  n = 0xA0 || n = 0x1680 || (0x2000 ≤ n && n ≤ 0x200A) ||
  n = 0x2028 || n = 0x2029 || n = 0x202F || n = 0x205F || n = 0x3000 || n = 0xFEFF

/-- List-level trim: drop JS whitespace from both ends. -/
def jsTrimL (l : List Char) : List Char :=
  (l.dropWhile jsWhitespaceChar).rdropWhile jsWhitespaceChar

/-- Embedding of JavaScript `text.trim()`. -/
def jsTrim (s : String) : String := ⟨jsTrimL s.data⟩

/-- Embedding of JavaScript `text.toLowerCase()` (ASCII case folding). -/
def jsToLower (s : String) : String := ⟨s.data.map Char.toLower⟩

/-- Does `pat` occur as a contiguous sublist of `hay`? -/
def containsSub (hay pat : List Char) : Bool :=
  match hay with
  | [] => pat.isEmpty
  | _ :: rest => pat.isPrefixOf hay || containsSub rest pat

/-- Embedding of JavaScript `s.includes(pat)`. -/
def jsIncludes (s pat : String) : Bool := containsSub s.data pat.data

/-- Embedding of JavaScript `s.startsWith(pat)`. -/
def jsStartsWith (s pat : String) : Bool := pat.data.isPrefixOf s.data

/-- Embedding of JavaScript `s.endsWith(pat)`. -/
def jsEndsWith (s pat : String) : Bool := pat.data.isSuffixOf s.data

theorem dropWhile_jsTrimL (l : List Char) :
    (jsTrimL l).dropWhile jsWhitespaceChar = jsTrimL l := by
  unfold jsTrimL
  rw [List.dropWhile_eq_self_iff]
  intro hl
  have hpre := List.rdropWhile_prefix jsWhitespaceChar (l.dropWhile jsWhitespaceChar)
  have hlen : 0 < (l.dropWhile jsWhitespaceChar).length :=
    lt_of_lt_of_le hl hpre.length_le
  have hget := List.IsPrefix.getElem hpre (by simpa using hl)
  have hnot := List.dropWhile_get_zero_not jsWhitespaceChar l hlen
  simp only [List.get_eq_getElem] at hnot ⊢
  rw [hget]
  exact hnot

theorem jsTrimL_idem (l : List Char) : jsTrimL (jsTrimL l) = jsTrimL l := by
  conv_lhs => rw [jsTrimL, dropWhile_jsTrimL]
  rw [jsTrimL, List.rdropWhile_idempotent]

theorem jsTrim_idem (s : String) : jsTrim (jsTrim s) = jsTrim s := by
  simp [jsTrim, jsTrimL_idem]

end JsStr

namespace Seg

open JsStr

/-- Question-starter phrases of `SpeechToTextHelper.isLikelyQuestion`. -/
def questionStarters : List String :=
  ["what", "how", "why", "when", "where", "which", "who", "whose", "whom",
   "can you", "could you", "will you", "would you", "please",
   "tell me", "explain", "describe", "elaborate", "discuss", "compare",
   "can we", "should we", "shall we",
   "do you", "did you", "have you", "are you", "is there", "are there",
   "solve", "implement", "write", "code", "design", "create"]

/-- Imperative phrases of `SpeechToTextHelper.isLikelyQuestion`. -/
def imperativePhrases : List String :=
  ["let me know", "think about", "consider", "look at", "show me",
   "walk me through", "talk about", "go through"]

/-- Technical interview keywords of `SpeechToTextHelper.isLikelyQuestion`. -/
def interviewPatterns : List String :=
  ["algorithm", "complexity", "optimize", "efficient", "solution",
   "approach", "strategy", "method", "technique", "implement",
   "time complexity", "space complexity", "big o", "runtime"]

/-- Embedding of `SpeechToTextHelper.isLikelyQuestion`. -/
def isLikelyQuestion (text : String) : Bool :=
  if (jsTrim text).length < 3 then false
  else
    let t := jsTrim text
    if jsIncludes t "?" then true
    else
      let lower := jsToLower t
      (questionStarters.any fun st =>
        jsStartsWith lower (st ++ " ") || jsStartsWith lower (st ++ ",") ||
        jsIncludes lower (" " ++ st ++ " ") || jsIncludes lower (", " ++ st ++ " "))
      || imperativePhrases.any (fun p => jsIncludes lower p)
      || interviewPatterns.any (fun p => jsIncludes lower p)

/-- Minimum characters for a valid question (`MIN_QUESTION_LENGTH`). -/
def MIN_QUESTION_LENGTH : Nat := 10

/-- Subject words of the completeness regex of `isQuestionComplete`. -/
def svSubjects : List String :=
  ["you", "i", "we", "they", "he", "she", "it", "this", "that", "there"]

/-- Modal/verb words of the completeness regex of `isQuestionComplete`. -/
def svVerbs : List String :=
  ["are", "is", "can", "could", "should", "would", "will", "do", "did",
   "have", "has", "want", "need", "think"]

/-- JavaScript regex word character class `\w` (ASCII). -/
def isWordCharJS (c : Char) : Bool :=
  ('a' ≤ c && c ≤ 'z') || ('A' ≤ c && c ≤ 'Z') || ('0' ≤ c && c ≤ '9') || c = '_'

/-- Try to match `(subject)\s+(verb)` exactly at the head of `l`.  The
verbs start with letters, so the greedy `\s+` is equivalent to taking the
maximal whitespace run. -/
def svMatchHere (l : List Char) : Bool :=
  svSubjects.any fun subj =>
    subj.data.isPrefixOf l &&
    (let rest := l.drop subj.data.length
     match rest with
     | [] => false
     | c :: _ =>
       jsWhitespaceChar c &&
       svVerbs.any fun v => v.data.isPrefixOf (rest.dropWhile jsWhitespaceChar))

/-- Scan all positions for a `\b(subject)\s+(verb)` match; `prevc` is the
character before the current position (`none` at the start of the text).
The subjects start with word characters, so the word boundary `\b` holds
exactly when `prevc` is absent or a non-word character. -/
def svScan (prevc : Option Char) (l : List Char) : Bool :=
  match l with
  | [] => false
  | c :: rest =>
    ((match prevc with
      | none => true
      | some p => !isWordCharJS p) && svMatchHere (c :: rest))
    || svScan (some c) rest

/-- Embedding of the test of the case-insensitive regex
`\b(you|i|...)\s+(are|is|...)` in `isQuestionComplete`; matching on the
lower-cased text embeds the `i` flag for these all-lowercase patterns. -/
def hasSubjectVerb (t : String) : Bool := svScan none (jsToLower t).data

/-- Embedding of the regex test `trimmedText.match(/[.!?]$/)`. -/
def endsWithTerminalPunct (t : String) : Bool :=
  match t.data.getLast? with
  | some c => c = '.' || c = '!' || c = '?'
  | none => false

/-- Embedding of `SpeechToTextHelper.isQuestionComplete`. -/
def isQuestionComplete (text : String) : Bool :=
  if (jsTrim text).length < MIN_QUESTION_LENGTH then false
  else
    let t := jsTrim text
    if endsWithTerminalPunct t then true
    else if 50 < t.length && isLikelyQuestion t then hasSubjectVerb t
    else false

example : isLikelyQuestion "what is the time complexity" = true := by decide
example : isLikelyQuestion "hello there friend" = false := by decide
example : isLikelyQuestion "ok" = false := by decide
example : isQuestionComplete "Why?" = false := by decide
example : isQuestionComplete "tell me about your approach" = false := by decide
example : isQuestionComplete "What is the time complexity of quicksort." = true := by decide
example :
    isQuestionComplete
      "please tell me how you would design a cache because it is important" = true := by
  decide
example : hasSubjectVerb "maybe it is fine" = true := by decide
example : hasSubjectVerb "rabbit isthmus" = false := by decide

end Seg

namespace Seg

open JsStr

/-- Millisecond constants of `SpeechToTextHelper`. -/
def QUESTION_COMPLETION_PAUSE : Int := 2000

/-- Maximum buffer age before a forced flush (`MAX_QUESTION_BUFFER_TIME`). -/
def MAX_QUESTION_BUFFER_TIME : Int := 30000

/-- Emission-debounce window (`EMIT_DEBOUNCE_TIME`). -/
def EMIT_DEBOUNCE_TIME : Int := 8000

/-- Speaker-switch detection threshold (`SPEAKER_SWITCH_THRESHOLD`). -/
def SPEAKER_SWITCH_THRESHOLD : Int := 1500

/-- Number of pieces of JavaScript `text.split(/\s+/)`: the maximal non-ws
runs, plus an empty leading piece when the text starts with whitespace and
an empty trailing piece when it ends with whitespace. -/
def countNonWsRuns (l : List Char) : Nat :=
  (l.foldl
    (fun (acc : Nat × Bool) c =>
      if jsWhitespaceChar c then (acc.1, true)
      else (if acc.2 then acc.1 + 1 else acc.1, false))
    (0, true)).1

/-- Embedding of `text.split(/\s+/).length`. -/
def jsWordCount (s : String) : Nat :=
  let segs := countNonWsRuns s.data
  if segs = 0 then (if s.data = [] then 1 else 2)
  else
    segs + (if s.data.head?.any jsWhitespaceChar then 1 else 0) +
      (if s.data.getLast?.any jsWhitespaceChar then 1 else 0)

/-- Embedding of the `QuestionBuffer` record. -/
structure QBuffer where
  text : String
  speaker : Option Nat
  lastUpdateTime : Int
  wordCount : Nat
  hasQuestionMarkers : Bool
  deriving DecidableEq

/-- Session-scoped mutable fields of `SpeechToTextHelper` used by the
segmentation pipeline.  `hasLiveConnection` models `liveTcp !== null`, the
activity map is an association list, and `questionCompletionTimer` models
whether a completion timer is pending. -/
structure SpeechState where
  isListening : Bool
  hasLiveConnection : Bool
  lastEmittedTranscript : String
  lastEmittedTime : Int
  firstSpeakerId : Option Nat
  questionBuffer : Option QBuffer
  questionCompletionTimer : Bool
  lastSpeakerActivity : List (Nat × Int)
  currentActiveSpeaker : Option Nat
  silenceStartTime : Option Int
  processedTranscriptIds : List String
  deriving DecidableEq

/-- Field values of a freshly constructed helper. -/
def initialSpeechState : SpeechState where
  isListening := false
  hasLiveConnection := false
  lastEmittedTranscript := ""
  lastEmittedTime := 0
  firstSpeakerId := none
  questionBuffer := none
  questionCompletionTimer := false
  lastSpeakerActivity := []
  currentActiveSpeaker := none
  silenceStartTime := none
  processedTranscriptIds := []

/-- Embedding of `SpeechToTextHelper.resetVADState`. -/
def resetVADState (s : SpeechState) : SpeechState :=
  { s with
    firstSpeakerId := none
    questionBuffer := none
    currentActiveSpeaker := none
    silenceStartTime := none
    lastSpeakerActivity := []
    questionCompletionTimer := false }

/-- Embedding of `SpeechToTextHelper.stopListening` (the `liveTcp.finish()`
network call is assumed not to throw). -/
def stopListening (s : SpeechState) : SpeechState × Bool :=
  if !s.isListening || !s.hasLiveConnection then (s, false)
  else
    (resetVADState { s with isListening := false, processedTranscriptIds := [] }, true)

/-- Embedding of `SpeechToTextHelper.emitCompleteQuestion`; the second
component is the payload of the emitted `transcription` event, if any. -/
def emitCompleteQuestion (s : SpeechState) (now : Int) (questionText : String) :
    SpeechState × Option String :=
  if questionText = "" ∨ (jsTrim questionText).length = 0 then (s, none)
  else
    let tq := jsTrim questionText
    if isLikelyQuestion tq = false then (s, none)
    else if tq = s.lastEmittedTranscript ∧ now - s.lastEmittedTime < EMIT_DEBOUNCE_TIME then
      (s, none)
    else ({ s with lastEmittedTranscript := tq, lastEmittedTime := now }, some tq)

/-- Embedding of `SpeechToTextHelper.processQuestionBuffer`. -/
def processQuestionBuffer (s : SpeechState) (now : Int) : SpeechState × Option String :=
  match s.questionBuffer with
  | none => (s, none)
  | some qb =>
    let timeSinceLastUpdate := now - qb.lastUpdateTime
    let totalBufferTime := now - (qb.lastUpdateTime - timeSinceLastUpdate)
    if (QUESTION_COMPLETION_PAUSE ≤ timeSinceLastUpdate ∧ isLikelyQuestion qb.text = true)
        ∨ isQuestionComplete qb.text = true
        ∨ MAX_QUESTION_BUFFER_TIME ≤ totalBufferTime
        ∨ (s.currentActiveSpeaker ≠ none ∧ s.currentActiveSpeaker ≠ qb.speaker) then
      let r := emitCompleteQuestion s now qb.text
      ({ r.1 with questionBuffer := none, questionCompletionTimer := false }, r.2)
    else (s, none)

/-- Replace the binding of `k` in the activity map (`Map.set`). -/
def setActivity (m : List (Nat × Int)) (k : Nat) (v : Int) : List (Nat × Int) :=
  (k, v) :: m.filter (fun kv => kv.1 != k)

/-- Embedding of `SpeechToTextHelper.handleSpeakerActivity`; the second
component is a question emitted by the nested `processQuestionBuffer`. -/
def handleSpeakerActivity (s : SpeechState) (speaker : Option Nat) (now : Int) :
    SpeechState × Option String :=
  match speaker with
  | none => (s, none)
  | some sp =>
    let lastActivity := (List.lookup sp s.lastSpeakerActivity).getD 0
    let s1 := { s with lastSpeakerActivity := setActivity s.lastSpeakerActivity sp now }
    let inner :=
      if s1.currentActiveSpeaker ≠ none ∧ s1.currentActiveSpeaker ≠ some sp ∧
          SPEAKER_SWITCH_THRESHOLD < now - lastActivity then
        match s1.questionBuffer with
        | some qb =>
          if qb.speaker = some 0 ∧ sp = 1 then processQuestionBuffer s1 now
          else (s1, none)
        | none => (s1, none)
      else (s1, none)
    ({ inner.1 with currentActiveSpeaker := some sp }, inner.2)

/-- Embedding of `SpeechToTextHelper.updateQuestionBuffer`.  An
`isFinal = true` event schedules a 300 ms delayed `processQuestionBuffer`;
that delayed call is a separate reactor event in this model and does not
mutate the state here. -/
def updateQuestionBuffer (s : SpeechState) (text : String) (speaker : Option Nat)
    (isFinal : Bool) (now : Int) : SpeechState :=
  match s.questionBuffer with
  | none =>
    if isLikelyQuestion text then
      { s with
        questionBuffer := some ⟨text, speaker, now, jsWordCount text, jsIncludes text "?"⟩
        questionCompletionTimer := true }
    else s
  | some qb =>
    if speaker = none ∨ speaker = qb.speaker then
      { s with
        questionBuffer := some
          { qb with
            text := text
            lastUpdateTime := now
            wordCount := jsWordCount text
            hasQuestionMarkers := jsIncludes text "?" }
        questionCompletionTimer := true }
    else s

end Seg

namespace Seg

open JsStr

/-- One word of a diarized Deepgram transcript: `word.speaker` is `none`
when the provider supplied no speaker tag (`undefined`). -/
structure DiarizedWord where
  word : String
  speaker : Option Nat
  deriving DecidableEq

/-- First-speaker scan at the top of `handleDiarizedTranscript`: assign
`firstSpeakerId` from the first tagged word if it is still unset. -/
def scanFirstSpeaker (fs : Option Nat) (ws : List DiarizedWord) : Option Nat :=
  match fs with
  | some x => some x
  | none => ws.findSome? (fun w => w.speaker)

/-- Per-word speaker mapping of `handleDiarizedTranscript`: with a known
first speaker, the first speaker becomes role `0` (Interviewer) and any
other tagged speaker becomes role `1`; untagged words keep `none`. -/
def mapSpeaker (fs : Option Nat) (orig : Option Nat) : Option Nat :=
  match fs, orig with
  | some f, some o => some (if o = f then 0 else 1)
  | _, _ => orig

/-- One same-speaker segment of the formatted transcript. -/
structure Segment where
  speaker : Option Nat
  text : String
  deriving DecidableEq

/-- Accumulator of the word loop of `handleDiarizedTranscript`.  `mapped`
records the mapped speaker of each word in order (the value the loop binds
to `mappedSpeaker`); `emissions` collects questions emitted through
`handleSpeakerActivity`. -/
structure DiarAcc where
  st : SpeechState
  currentSpeaker : Option Nat
  currentText : String
  segs : List Segment
  mapped : List (Option Nat)
  emissions : List String

/-- The word loop of `handleDiarizedTranscript`. -/
def diarLoop (fs : Option Nat) (now : Int) : DiarAcc → List DiarizedWord → DiarAcc
  | acc, [] => acc
  | acc, w :: ws =>
    let mappedSp := mapSpeaker fs w.speaker
    let acc1 :=
      if mappedSp ≠ acc.currentSpeaker ∧ jsTrim acc.currentText ≠ "" then
        { acc with
          segs := acc.segs ++ [⟨acc.currentSpeaker, jsTrim acc.currentText⟩]
          currentText := "" }
      else acc
    let acc2 :=
      { acc1 with
        currentSpeaker := mappedSp
        currentText := acc1.currentText ++ " " ++ w.word }
    let acc3 :=
      match mappedSp with
      | some _ =>
        let r := handleSpeakerActivity acc2.st mappedSp now
        { acc2 with st := r.1, emissions := acc2.emissions ++ r.2.toList }
      | none => acc2
    diarLoop fs now { acc3 with mapped := acc3.mapped ++ [mappedSp] } ws

/-- Result of `handleDiarizedTranscript`. -/
structure DiarResult where
  st : SpeechState
  mapped : List (Option Nat)
  segs : List Segment
  emissions : List String

/-- Embedding of `SpeechToTextHelper.handleDiarizedTranscript`: scan for the
first speaker, map every word's speaker to a role, group words into
segments, track speaker activity, and feed the joined Interviewer text to
the question buffer. -/
def handleDiarizedTranscript (s : SpeechState) (words : List DiarizedWord)
    (isFinal : Bool) (now : Int) : DiarResult :=
  let fs := scanFirstSpeaker s.firstSpeakerId words
  let s0 := { s with firstSpeakerId := fs }
  let acc := diarLoop fs now ⟨s0, none, "", [], [], []⟩ words
  let segs :=
    if jsTrim acc.currentText ≠ "" then
      acc.segs ++ [⟨acc.currentSpeaker, jsTrim acc.currentText⟩]
    else acc.segs
  let interviewerSegs := segs.filter (fun sg => sg.speaker == some 0)
  let st1 :=
    if interviewerSegs.isEmpty then acc.st
    else
      updateQuestionBuffer acc.st
        (String.intercalate " " (interviewerSegs.map (fun sg => sg.text)))
        (some 0) isFinal now
  ⟨st1, acc.mapped, segs, acc.emissions⟩

/-- One inbound diarized transcript event. -/
structure DiarEvent where
  words : List DiarizedWord
  isFinal : Bool
  now : Int

/-- Run a session worth of diarized events, collecting the mapped speaker
roles of every event's words. -/
def runDiarizedSession (s : SpeechState) : List DiarEvent → SpeechState × List (List (Option Nat))
  | [] => (s, [])
  | e :: es =>
    let r := handleDiarizedTranscript s e.words e.isFinal e.now
    let rest := runDiarizedSession r.st es
    (rest.1, r.mapped :: rest.2)

/-- First provider speaker id occurring in a list of diarized events. -/
def firstDiarSpeaker (evts : List DiarEvent) : Option Nat :=
  (evts.flatMap (fun e => e.words)).findSome? (fun w => w.speaker)

end Seg

namespace Seg

open JsStr

theorem emitCompleteQuestion_firstSpeakerId (s : SpeechState) (now : Int) (qt : String) :
    (emitCompleteQuestion s now qt).1.firstSpeakerId = s.firstSpeakerId := by
  simp only [emitCompleteQuestion]
  repeat' split
  all_goals rfl

theorem processQuestionBuffer_firstSpeakerId (s : SpeechState) (now : Int) :
    (processQuestionBuffer s now).1.firstSpeakerId = s.firstSpeakerId := by
  simp only [processQuestionBuffer]
  repeat' split
  all_goals simp [emitCompleteQuestion_firstSpeakerId]

theorem handleSpeakerActivity_firstSpeakerId (s : SpeechState) (sp : Option Nat) (now : Int) :
    (handleSpeakerActivity s sp now).1.firstSpeakerId = s.firstSpeakerId := by
  simp only [handleSpeakerActivity]
  repeat' split
  all_goals simp [processQuestionBuffer_firstSpeakerId]

theorem updateQuestionBuffer_firstSpeakerId (s : SpeechState) (text : String)
    (sp : Option Nat) (fin : Bool) (now : Int) :
    (updateQuestionBuffer s text sp fin now).firstSpeakerId = s.firstSpeakerId := by
  simp only [updateQuestionBuffer]
  repeat' split
  all_goals rfl

theorem diarLoop_st_firstSpeakerId (fs : Option Nat) (now : Int) (acc : DiarAcc)
    (ws : List DiarizedWord) :
    (diarLoop fs now acc ws).st.firstSpeakerId = acc.st.firstSpeakerId := by
  induction ws generalizing acc with
  | nil => rfl
  | cons w ws ih =>
    simp only [diarLoop]
    rw [ih]
    cases mapSpeaker fs w.speaker <;> repeat' split
    all_goals simp [handleSpeakerActivity_firstSpeakerId]


theorem diarLoop_mapped (fs : Option Nat) (now : Int) (acc : DiarAcc)
    (ws : List DiarizedWord) :
    (diarLoop fs now acc ws).mapped =
      acc.mapped ++ ws.map (fun w => mapSpeaker fs w.speaker) := by
  induction ws generalizing acc with
  | nil => simp [diarLoop]
  | cons w ws ih =>
    simp only [diarLoop, List.map_cons]
    rw [ih]
    cases mapSpeaker fs w.speaker <;> repeat' split
    all_goals simp

theorem handleDiarizedTranscript_firstSpeakerId (s : SpeechState)
    (ws : List DiarizedWord) (fin : Bool) (now : Int) :
    (handleDiarizedTranscript s ws fin now).st.firstSpeakerId =
      scanFirstSpeaker s.firstSpeakerId ws := by
  simp only [handleDiarizedTranscript]
  repeat' split
  all_goals
    first
    | rw [diarLoop_st_firstSpeakerId]
    | rw [updateQuestionBuffer_firstSpeakerId, diarLoop_st_firstSpeakerId]

theorem handleDiarizedTranscript_mapped (s : SpeechState)
    (ws : List DiarizedWord) (fin : Bool) (now : Int) :
    (handleDiarizedTranscript s ws fin now).mapped =
      ws.map (fun w => mapSpeaker (scanFirstSpeaker s.firstSpeakerId ws) w.speaker) := by
  unfold handleDiarizedTranscript
  simp [diarLoop_mapped]

end Seg

namespace Seg

/-- Fold of the first-speaker scan over a list of diarized events. -/
def sessionFs (fs : Option Nat) : List DiarEvent → Option Nat
  | [] => fs
  | e :: es => sessionFs (scanFirstSpeaker fs e.words) es

theorem sessionFs_some (x : Nat) (evts : List DiarEvent) :
    sessionFs (some x) evts = some x := by
  induction evts with
  | nil => rfl
  | cons e es ih => simpa [sessionFs, scanFirstSpeaker] using ih

theorem sessionFs_append (fs : Option Nat) (l1 l2 : List DiarEvent) :
    sessionFs fs (l1 ++ l2) = sessionFs (sessionFs fs l1) l2 := by
  induction l1 generalizing fs with
  | nil => rfl
  | cons e es ih => simp [sessionFs, ih]

/-- Left-biased choice on options, the shape of a short-circuited scan. -/
def orElseO {α : Type} (a b : Option α) : Option α :=
  match a with
  | some x => some x
  | none => b

theorem findSome?_append_match {α β : Type} (l1 l2 : List α) (f : α → Option β) :
    (l1 ++ l2).findSome? f = orElseO (l1.findSome? f) (l2.findSome? f) := by
  induction l1 with
  | nil => simp [orElseO]
  | cons a l ih =>
    simp only [List.cons_append, List.findSome?_cons]
    cases f a <;> simp [orElseO, ih]

theorem firstDiarSpeaker_append (l1 l2 : List DiarEvent) :
    firstDiarSpeaker (l1 ++ l2) =
      orElseO (firstDiarSpeaker l1) (firstDiarSpeaker l2) := by
  simp only [firstDiarSpeaker, List.flatMap_append, findSome?_append_match]

theorem sessionFs_none_eq_firstDiar (evts : List DiarEvent) :
    sessionFs none evts = firstDiarSpeaker evts := by
  induction evts with
  | nil => rfl
  | cons e es ih =>
    simp only [sessionFs, scanFirstSpeaker, firstDiarSpeaker, List.flatMap_cons,
      findSome?_append_match]
    cases h : e.words.findSome? (fun w => w.speaker) with
    | some x => simp [h, sessionFs_some, orElseO]
    | none => simp [h, ih, orElseO, firstDiarSpeaker]

theorem firstDiar_prefix_stable (evts : List DiarEvent) (i j : Nat) (hij : i ≤ j)
    (f : Nat) (hf : firstDiarSpeaker (evts.take (i + 1)) = some f) :
    firstDiarSpeaker (evts.take (j + 1)) = some f := by
  have hsplit : evts.take (j + 1) = evts.take (i + 1) ++ (evts.drop (i + 1)).take (j - i) := by
    rw [← List.take_add]
    congr 1
    omega
  rw [hsplit, firstDiarSpeaker_append, hf]
  rfl

theorem runDiarizedSession_fs (s : SpeechState) (evts : List DiarEvent) :
    (runDiarizedSession s evts).1.firstSpeakerId = sessionFs s.firstSpeakerId evts := by
  induction evts generalizing s with
  | nil => rfl
  | cons e es ih =>
    simp only [runDiarizedSession, sessionFs]
    rw [ih, handleDiarizedTranscript_firstSpeakerId]

theorem runDiarizedSession_mapped_get? (s : SpeechState) (evts : List DiarEvent)
    (j : Nat) (e : DiarEvent) (hj : evts.get? j = some e) :
    (runDiarizedSession s evts).2.get? j =
      some (e.words.map (fun w =>
        mapSpeaker (scanFirstSpeaker (sessionFs s.firstSpeakerId (evts.take j)) e.words)
          w.speaker)) := by
  induction evts generalizing s j with
  | nil => simp at hj
  | cons e0 es ih =>
    cases j with
    | zero =>
      simp only [List.get?_cons_zero, Option.some.injEq] at hj
      subst hj
      simp [runDiarizedSession, handleDiarizedTranscript_mapped, sessionFs]
    | succ j =>
      simp only [List.get?_cons_succ] at hj
      simp only [runDiarizedSession, List.get?_cons_succ]
      rw [ih _ j hj, handleDiarizedTranscript_firstSpeakerId]
      rfl

end Seg

namespace Seg

open JsStr

/-- C2: within one listening session (initial `firstSpeakerId = none`), the
first provider speaker id observed in diarized words (`some f`, fixed no
later than event `i`) stays the Interviewer for the whole session: the
mapped roles of every later event `j` are computed against that same id
(`mapSpeaker (some f)`), so a word with id `f` gets role `0` (Interviewer),
a word with any other id gets role `1` (Other), a word with no id keeps no
role, and the stored first-speaker id is still `some f` at session end. -/
theorem c2_interviewer_role_stable
    (s : SpeechState) (evts : List DiarEvent) (i j y f : Nat) (e : DiarEvent)
    (hs : s.firstSpeakerId = none) (hij : i ≤ j)
    (hf : firstDiarSpeaker (evts.take (i + 1)) = some f)
    (hj : evts.get? j = some e) :
    (runDiarizedSession s evts).2.get? j =
        some (e.words.map (fun w => mapSpeaker (some f) w.speaker))
      ∧ (runDiarizedSession s evts).1.firstSpeakerId = some f
      ∧ mapSpeaker (some f) (some y) = some (if y = f then 0 else 1)
      ∧ mapSpeaker (some f) none = none := by
  have hstable : firstDiarSpeaker (evts.take (j + 1)) = some f :=
    firstDiar_prefix_stable evts i j hij f hf
  have htake : evts.take (j + 1) = evts.take j ++ [e] := by
    rw [List.take_succ]
    have : evts[j]? = some e := by rw [← List.get?_eq_getElem?]; exact hj
    rw [this]
    rfl
  have hsess : scanFirstSpeaker (sessionFs s.firstSpeakerId (evts.take j)) e.words = some f := by
    have h2 : sessionFs s.firstSpeakerId (evts.take (j + 1)) =
        scanFirstSpeaker (sessionFs s.firstSpeakerId (evts.take j)) e.words := by
      rw [htake, sessionFs_append]
      rfl
    rw [← h2, hs, sessionFs_none_eq_firstDiar, hstable]
  refine ⟨?_, ?_, rfl, rfl⟩
  · rw [runDiarizedSession_mapped_get? s evts j e hj, hsess]
  · rw [runDiarizedSession_fs]
    conv_lhs => rw [← List.take_append_drop (j + 1) evts]
    rw [sessionFs_append, hs, sessionFs_none_eq_firstDiar, hstable, sessionFs_some]

/-- Two-event witness session: the interviewer (provider id 7) speaks first,
then a different speaker (provider id 9) plus an untagged word. -/
def c2Events : List DiarEvent :=
  [⟨[⟨"what", some 7⟩, ⟨"is", some 7⟩], false, 1000⟩,
   ⟨[⟨"yes", some 9⟩, ⟨"ok", none⟩], true, 2000⟩]

theorem c2_interviewer_role_stable_witness :
    (runDiarizedSession initialSpeechState c2Events).2.get? 1 = some [some 1, none]
      ∧ (runDiarizedSession initialSpeechState c2Events).1.firstSpeakerId = some 7
      ∧ mapSpeaker (some 7) (some 9) = some 1
      ∧ mapSpeaker (some 7) none = none :=
  c2_interviewer_role_stable initialSpeechState c2Events 0 1 9 7
    ⟨[⟨"yes", some 9⟩, ⟨"ok", none⟩], true, 2000⟩ rfl (by decide) (by decide) rfl

theorem isLikelyQuestion_not_short (t : String)
    (h : isLikelyQuestion t = true) : ¬ (jsTrim t).length < 3 := by
  intro hlt
  rw [isLikelyQuestion] at h
  simp [hlt] at h

/-- C3: for a flushed text passing `isLikelyQuestion`, `emitCompleteQuestion`
suppresses the emission iff the trimmed text equals the last emitted one and
less than the 8000 ms debounce window has elapsed; otherwise it records the
trimmed text with the current time and emits it, and in particular a text
different from the last emitted one is emitted regardless of elapsed time. -/
theorem c3_emission_gate_debounce
    (s : SpeechState) (text : String) (now : Int)
    (hq : isLikelyQuestion (jsTrim text) = true) :
    ((emitCompleteQuestion s now text).2 = none ↔
        (jsTrim text = s.lastEmittedTranscript ∧ now - s.lastEmittedTime < EMIT_DEBOUNCE_TIME))
      ∧ ((emitCompleteQuestion s now text).2 ≠ none →
          (emitCompleteQuestion s now text).2 = some (jsTrim text)
            ∧ (emitCompleteQuestion s now text).1.lastEmittedTranscript = jsTrim text
            ∧ (emitCompleteQuestion s now text).1.lastEmittedTime = now)
      ∧ (jsTrim text ≠ s.lastEmittedTranscript →
          (emitCompleteQuestion s now text).2 = some (jsTrim text)) := by
  have h3 : ¬ (jsTrim text).length < 3 := by
    have := isLikelyQuestion_not_short (jsTrim text) hq
    rwa [jsTrim_idem] at this
  have hne : ¬ (text = "" ∨ (jsTrim text).length = 0) := by
    rintro (h | h)
    · subst h
      exact h3 (by decide)
    · omega
  by_cases hc : jsTrim text = s.lastEmittedTranscript ∧
      now - s.lastEmittedTime < EMIT_DEBOUNCE_TIME
  · simp [emitCompleteQuestion, hne, hq, hc, hc.1]
  · simp [emitCompleteQuestion, hne, hq, hc]

theorem c3_emission_gate_debounce_witness :
    ((emitCompleteQuestion initialSpeechState 123456 "what is recursion").2 = none ↔
        (jsTrim "what is recursion" = initialSpeechState.lastEmittedTranscript ∧
          123456 - initialSpeechState.lastEmittedTime < EMIT_DEBOUNCE_TIME))
      ∧ ((emitCompleteQuestion initialSpeechState 123456 "what is recursion").2 ≠ none →
          (emitCompleteQuestion initialSpeechState 123456 "what is recursion").2 =
              some (jsTrim "what is recursion")
            ∧ (emitCompleteQuestion initialSpeechState 123456
                "what is recursion").1.lastEmittedTranscript = jsTrim "what is recursion"
            ∧ (emitCompleteQuestion initialSpeechState 123456
                "what is recursion").1.lastEmittedTime = 123456)
      ∧ (jsTrim "what is recursion" ≠ initialSpeechState.lastEmittedTranscript →
          (emitCompleteQuestion initialSpeechState 123456 "what is recursion").2 =
            some (jsTrim "what is recursion")) :=
  c3_emission_gate_debounce initialSpeechState "what is recursion" 123456 (by decide)

/-- Interviewer question buffered 100 ms ago when the candidate starts
speaking. -/
def c5Buffer : QBuffer :=
  ⟨"tell me about your approach", some 0, 1000000, 5, false⟩

/-- Helper state holding `c5Buffer` with the interviewer (role 0) as the
current active speaker. -/
def c5BufferedState : SpeechState :=
  { initialSpeechState with
    isListening := true
    hasLiveConnection := true
    firstSpeakerId := some 7
    questionBuffer := some c5Buffer
    questionCompletionTimer := true
    lastSpeakerActivity := [(0, 1000000)]
    currentActiveSpeaker := some 0 }

/-- Candidate words (provider id 8, mapped to role 1). -/
def c5OtherWords : List DiarizedWord :=
  [⟨"I", some 8⟩, ⟨"would", some 8⟩, ⟨"use", some 8⟩, ⟨"a", some 8⟩, ⟨"hashmap", some 8⟩]

/-- C5 failing input: when the candidate (role 1) starts speaking while an
Interviewer question is buffered, `handleSpeakerActivity` invokes
`processQuestionBuffer` before `currentActiveSpeaker` is reassigned, so the
speaker-switch emit condition `currentActiveSpeaker ≠ buffer.speaker`
compares the buffer against the old active speaker (the interviewer itself)
and fails: the buffered question survives the event unflushed and nothing
is emitted, contradicting the immediate speaker-switch flush that both the
claim and the source's own comments describe. -/
theorem c5_speaker_switch_does_not_flush :
    (handleDiarizedTranscript c5BufferedState c5OtherWords false 1000100).st.questionBuffer =
        some c5Buffer
      ∧ (handleDiarizedTranscript c5BufferedState c5OtherWords false 1000100).emissions = []
      ∧ (handleDiarizedTranscript c5BufferedState c5OtherWords false 1000100).mapped =
          [some 1, some 1, some 1, some 1, some 1]
      ∧ isLikelyQuestion c5Buffer.text = true := by
  decide

/-- Mid-session state: a question was emitted earlier and a second one is
buffered when the user stops listening. -/
def c8State : SpeechState :=
  { initialSpeechState with
    isListening := true
    hasLiveConnection := true
    lastEmittedTranscript := "what is polymorphism"
    lastEmittedTime := 500000
    firstSpeakerId := some 3
    questionBuffer := some ⟨"what is inheritance", some 0, 600000, 3, false⟩
    questionCompletionTimer := true
    lastSpeakerActivity := [(0, 600000)]
    currentActiveSpeaker := some 0
    processedTranscriptIds := ["t1"] }

/-- C8 counterexample: a successful `stopListening` resets the speaker map
and the question buffer but leaves the emission record (last emitted text
and timestamp) untouched, refuting the claim that the emission record is
cleared. -/
theorem c8_stop_keeps_emission_record :
    (stopListening c8State).2 = true
      ∧ (stopListening c8State).1.firstSpeakerId = none
      ∧ (stopListening c8State).1.questionBuffer = none
      ∧ (stopListening c8State).1.lastEmittedTranscript = "what is polymorphism"
      ∧ (stopListening c8State).1.lastEmittedTime = 500000 := by
  decide

/-- C8 (amended): after a successful `stopListening`, all VAD state (the
first-speaker map, the question buffer, the active-speaker and
speaker-activity records, the silence marker, the pending completion timer)
and the processed-transcript ids are reset and listening stops, but the
emission record (`lastEmittedTranscript`/`lastEmittedTime`) is retained
unchanged. -/
theorem c8_stop_resets_vad_state (s : SpeechState)
    (h : (stopListening s).2 = true) :
    (stopListening s).1.firstSpeakerId = none
      ∧ (stopListening s).1.questionBuffer = none
      ∧ (stopListening s).1.currentActiveSpeaker = none
      ∧ (stopListening s).1.silenceStartTime = none
      ∧ (stopListening s).1.lastSpeakerActivity = []
      ∧ (stopListening s).1.questionCompletionTimer = false
      ∧ (stopListening s).1.processedTranscriptIds = []
      ∧ (stopListening s).1.isListening = false
      ∧ (stopListening s).1.lastEmittedTranscript = s.lastEmittedTranscript
      ∧ (stopListening s).1.lastEmittedTime = s.lastEmittedTime := by
  cases hg : (!s.isListening || !s.hasLiveConnection) with
  | true => simp [stopListening, hg] at h
  | false => simp [stopListening, hg, resetVADState]

theorem c8_stop_resets_vad_state_witness :
    (stopListening c8State).1.firstSpeakerId = none
      ∧ (stopListening c8State).1.questionBuffer = none
      ∧ (stopListening c8State).1.currentActiveSpeaker = none
      ∧ (stopListening c8State).1.silenceStartTime = none
      ∧ (stopListening c8State).1.lastSpeakerActivity = []
      ∧ (stopListening c8State).1.questionCompletionTimer = false
      ∧ (stopListening c8State).1.processedTranscriptIds = []
      ∧ (stopListening c8State).1.isListening = false
      ∧ (stopListening c8State).1.lastEmittedTranscript = c8State.lastEmittedTranscript
      ∧ (stopListening c8State).1.lastEmittedTime = c8State.lastEmittedTime :=
  c8_stop_resets_vad_state c8State (by decide)

end Seg

namespace Dispatch

open JsStr

/-- Debounce window of the dispatch stage (`DEBOUNCE_TIME`). -/
def DEBOUNCE_TIME : Int := 5000

/-- Stuck-call timeout of the processing lock (30 seconds). -/
def STUCK_TIMEOUT : Int := 30000

/-- Candidate self-reference phrases of `isValidInterviewQuestion`. -/
def candidateIndicators : List String :=
  ["i think", "i believe", "i would", "i will", "i have", "i am",
   "my approach", "my solution", "my experience", "my understanding",
   "let me", "so basically", "essentially", "fundamentally",
   "the answer is", "the solution", "this problem", "this question"]

/-- Interviewer phrases of `isValidInterviewQuestion`. -/
def interviewerPatterns : List String :=
  ["what", "how", "why", "when", "where", "which", "who", "whose", "whom",
   "can you", "could you", "will you", "would you", "please",
   "tell me", "explain", "describe", "elaborate", "discuss", "show me",
   "walk through", "think about", "consider", "solve", "implement",
   "write a function", "design a system", "optimize this", "improve",
   "time complexity", "space complexity", "algorithm", "approach"]

/-- Embedding of `isValidInterviewQuestion` (part_001): reject short texts,
reject any text containing a candidate self-reference phrase, and accept
the rest exactly when they contain an interviewer phrase or end in a
question mark. -/
def isValidInterviewQuestion (text : String) : Bool :=
  if (jsTrim text).length < 10 then false
  else
    let t := jsToLower (jsTrim text)
    if candidateIndicators.any (fun p => jsIncludes t p) then false
    else interviewerPatterns.any (fun p => jsIncludes t p) || jsEndsWith t "?"

/-- Module-level dispatch state of part_001: `lastProcessedText`,
`lastProcessedTime`, the `isCurrentlyProcessing` lock and the FIFO
`processingQueue`. -/
structure DispatchState where
  lastProcessedText : String
  lastProcessedTime : Int
  isCurrentlyProcessing : Bool
  processingQueue : List String
  deriving DecidableEq

/-- Initial module state of part_001. -/
def dispatchInit : DispatchState := ⟨"", 0, false, []⟩

/-- Outcome of the synchronous prefix of `handleSpeechTranscription`. -/
inductive DispatchAction where
  | dropShort
  | dropDuplicate
  | enqueue
  | dropInvalid
  | startCall (text : String)
  deriving DecidableEq

/-- Does the action start a backend answer-generation call? -/
def startsBackendCall (a : DispatchAction) : Bool :=
  match a with
  | .startCall _ => true
  | _ => false

/-- Embedding of the synchronous prefix of `handleSpeechTranscription` (up
to the `await` of the backend call): drop very short transcripts, drop
debounced duplicates, queue the transcript while the lock is held unless
the lock is older than the stuck-call timeout (in which case the lock is
forcibly cleared), drop invalid questions, and otherwise take the lock,
record the transcript and start the backend call.  The processing helper
is assumed to be initialized. -/
def handleArrival (s : DispatchState) (transcript : String) (now : Int) :
    DispatchState × DispatchAction :=
  if (jsTrim transcript).length < 5 then (s, .dropShort)
  else
    let t := jsTrim transcript
    if t = s.lastProcessedText ∧ now - s.lastProcessedTime < DEBOUNCE_TIME then
      (s, .dropDuplicate)
    else if s.isCurrentlyProcessing ∧ ¬ STUCK_TIMEOUT < now - s.lastProcessedTime then
      ({ s with processingQueue := s.processingQueue ++ [t] }, .enqueue)
    else if isValidInterviewQuestion t = false then
      ({ s with isCurrentlyProcessing := false }, .dropInvalid)
    else
      ({ s with
          isCurrentlyProcessing := true
          lastProcessedText := t
          lastProcessedTime := now },
        .startCall t)

/-- Embedding of the completion continuation of `handleSpeechTranscription`
(both the success path and the `catch` path): release the lock, then
`processNextInQueue` dequeues the head of the FIFO queue, if any, and
schedules it for re-delivery. -/
def handleCompletion (s : DispatchState) : DispatchState × Option String :=
  let s1 := { s with isCurrentlyProcessing := false }
  match s1.processingQueue with
  | [] => (s1, none)
  | t :: rest => ({ s1 with processingQueue := rest }, some t)

/-- Reactor-level system state: the module state plus the number of backend
calls started and not yet completed. -/
structure SysState where
  ds : DispatchState
  inflight : Nat
  deriving DecidableEq

/-- Initial system state. -/
def sysInit : SysState := ⟨dispatchInit, 0⟩

/-- Reactor events: delivery of a transcript to
`handleSpeechTranscription` (external or re-delivered from the queue) at a
clock reading, or completion (success or error) of an in-flight call. -/
inductive Event where
  | arrive (text : String) (now : Int)
  | complete
  deriving DecidableEq

/-- One reactor step. -/
def stepSys (σ : SysState) (e : Event) : SysState :=
  match e with
  | .arrive t now =>
    SysState.mk (handleArrival σ.ds t now).1
      (σ.inflight + (if startsBackendCall (handleArrival σ.ds t now).2 then 1 else 0))
  | .complete => SysState.mk (handleCompletion σ.ds).1 (σ.inflight - 1)

/-- Event admissibility: a completion requires an in-flight call, and an
arrival must not find a lock older than the stuck-call timeout (the regime
in which the liveness guard of C6 never fires). -/
def sideCondB (σ : SysState) (e : Event) : Bool :=
  match e with
  | .arrive _ now =>
    !(σ.ds.isCurrentlyProcessing && decide (STUCK_TIMEOUT < now - σ.ds.lastProcessedTime))
  | .complete => decide (1 ≤ σ.inflight)

/-- Admissible traces. -/
def admissibleB (σ : SysState) : List Event → Bool
  | [] => true
  | e :: es => sideCondB σ e && admissibleB (stepSys σ e) es

/-- Run a trace of reactor events. -/
def runTrace (σ : SysState) : List Event → SysState
  | [] => σ
  | e :: es => runTrace (stepSys σ e) es

/-- The single-flight invariant: the number of in-flight calls is `1`
exactly when the processing lock is held. -/
def inflightInv (σ : SysState) : Prop :=
  σ.inflight = if σ.ds.isCurrentlyProcessing then 1 else 0

end Dispatch

namespace Dispatch

open JsStr

theorem handleCompletion_flag (s : DispatchState) :
    (handleCompletion s).1.isCurrentlyProcessing = false := by
  simp only [handleCompletion]
  split <;> rfl

theorem handleArrival_spec (s : DispatchState) (tr : String) (now : Int) :
    ((jsTrim tr).length < 5 ∧ handleArrival s tr now = (s, .dropShort))
  ∨ (¬ (jsTrim tr).length < 5
      ∧ (jsTrim tr = s.lastProcessedText ∧ now - s.lastProcessedTime < DEBOUNCE_TIME)
      ∧ handleArrival s tr now = (s, .dropDuplicate))
  ∨ (¬ (jsTrim tr).length < 5
      ∧ ¬ (jsTrim tr = s.lastProcessedText ∧ now - s.lastProcessedTime < DEBOUNCE_TIME)
      ∧ (s.isCurrentlyProcessing = true ∧ ¬ STUCK_TIMEOUT < now - s.lastProcessedTime)
      ∧ handleArrival s tr now =
          ({ s with processingQueue := s.processingQueue ++ [jsTrim tr] }, .enqueue))
  ∨ (¬ (jsTrim tr).length < 5
      ∧ ¬ (jsTrim tr = s.lastProcessedText ∧ now - s.lastProcessedTime < DEBOUNCE_TIME)
      ∧ ¬ (s.isCurrentlyProcessing = true ∧ ¬ STUCK_TIMEOUT < now - s.lastProcessedTime)
      ∧ isValidInterviewQuestion (jsTrim tr) = false
      ∧ handleArrival s tr now = ({ s with isCurrentlyProcessing := false }, .dropInvalid))
  ∨ (¬ (jsTrim tr).length < 5
      ∧ ¬ (jsTrim tr = s.lastProcessedText ∧ now - s.lastProcessedTime < DEBOUNCE_TIME)
      ∧ ¬ (s.isCurrentlyProcessing = true ∧ ¬ STUCK_TIMEOUT < now - s.lastProcessedTime)
      ∧ isValidInterviewQuestion (jsTrim tr) = true
      ∧ handleArrival s tr now =
          ({ s with
              isCurrentlyProcessing := true
              lastProcessedText := jsTrim tr
              lastProcessedTime := now },
            .startCall (jsTrim tr))) := by
  by_cases h1 : (jsTrim tr).length < 5
  · exact Or.inl ⟨h1, by simp only [handleArrival, if_pos h1]⟩
  · by_cases h2 : jsTrim tr = s.lastProcessedText ∧ now - s.lastProcessedTime < DEBOUNCE_TIME
    · exact Or.inr (Or.inl ⟨h1, h2, by simp only [handleArrival, if_neg h1, if_pos h2]⟩)
    · by_cases h3 : s.isCurrentlyProcessing = true ∧ ¬ STUCK_TIMEOUT < now - s.lastProcessedTime
      · refine Or.inr (Or.inr (Or.inl ⟨h1, h2, h3, ?_⟩))
        simp only [handleArrival, if_neg h1, if_neg h2, if_pos h3]
      · by_cases h4 : isValidInterviewQuestion (jsTrim tr) = false
        · refine Or.inr (Or.inr (Or.inr (Or.inl ⟨h1, h2, h3, h4, ?_⟩)))
          simp only [handleArrival, if_neg h1, if_neg h2, if_neg h3, if_pos h4]
        · refine Or.inr (Or.inr (Or.inr (Or.inr ⟨h1, h2, h3, by simpa using h4, ?_⟩)))
          simp only [handleArrival, if_neg h1, if_neg h2, if_neg h3, if_neg h4]

theorem stepSys_preserves_inv (σ : SysState) (e : Event)
    (hP : inflightInv σ) (hc : sideCondB σ e = true) : inflightInv (stepSys σ e) := by
  cases e with
  | complete =>
    simp only [sideCondB, decide_eq_true_eq] at hc
    have hflag : σ.ds.isCurrentlyProcessing = true := by
      by_contra hf
      rw [Bool.not_eq_true] at hf
      rw [inflightInv, hf] at hP
      simp at hP
      omega
    rw [inflightInv, hflag] at hP
    simp at hP
    simp only [inflightInv, stepSys, handleCompletion_flag]
    simp
    omega
  | arrive t now =>
    simp only [sideCondB, Bool.not_eq_eq_eq_not, Bool.not_true, Bool.and_eq_false_imp,
      decide_eq_false_iff_not] at hc
    have hdrop : σ.ds.isCurrentlyProcessing = true → ¬ STUCK_TIMEOUT < now - σ.ds.lastProcessedTime :=
      hc
    rcases handleArrival_spec σ.ds t now with
      ⟨h1, heq⟩ | ⟨h1, h2, heq⟩ | ⟨h1, h2, h3, heq⟩ | ⟨h1, h2, h3, h4, heq⟩ |
      ⟨h1, h2, h3, h4, heq⟩
    · simpa [inflightInv, stepSys, heq, startsBackendCall] using hP
    · simpa [inflightInv, stepSys, heq, startsBackendCall] using hP
    · simp only [inflightInv, stepSys, heq, startsBackendCall] at hP ⊢
      simpa using hP
    · have hflag : σ.ds.isCurrentlyProcessing = false := by
        by_contra hf
        rw [Bool.not_eq_false] at hf
        exact h3 ⟨hf, hdrop hf⟩
      rw [inflightInv, hflag] at hP
      simp only [inflightInv, stepSys, heq, startsBackendCall]
      simp at hP ⊢
      omega
    · have hflag : σ.ds.isCurrentlyProcessing = false := by
        by_contra hf
        rw [Bool.not_eq_false] at hf
        exact h3 ⟨hf, hdrop hf⟩
      rw [inflightInv, hflag] at hP
      simp only [inflightInv, stepSys, heq, startsBackendCall]
      simp at hP ⊢
      omega

end Dispatch

namespace Dispatch

open JsStr

theorem runTrace_inv (evts : List Event) (σ : SysState) (hP : inflightInv σ)
    (h : admissibleB σ evts = true) : inflightInv (runTrace σ evts) := by
  induction evts generalizing σ with
  | nil => exact hP
  | cons e es ih =>
    simp only [admissibleB, Bool.and_eq_true] at h
    exact ih (stepSys σ e) (stepSys_preserves_inv σ e hP h.1) h.2

theorem handleCompletion_spec (s : DispatchState) :
    (handleCompletion s).2 = s.processingQueue.head?
      ∧ (handleCompletion s).1.processingQueue = s.processingQueue.tail
      ∧ (handleCompletion s).1.isCurrentlyProcessing = false := by
  simp only [handleCompletion]
  cases s.processingQueue <;> simp

/-- C1: along every admissible reactor trace (completions only of in-flight
calls; no arrival meets a lock older than the stuck-call timeout, i.e. the
C6 liveness guard never fires), at most one backend call is in flight; a
transcript that passes the length and duplicate filters and arrives while
the lock is held is appended (trimmed) to the back of the processing queue
with no new call started; and a completion releases the lock and dispatches
exactly the head of the queue, leaving its tail — FIFO submission order. -/
theorem c1_single_flight_fifo
    (evts : List Event) (t : String) (now : Int)
    (hadm : admissibleB sysInit evts = true)
    (hproc : (runTrace sysInit evts).ds.isCurrentlyProcessing = true)
    (hlen : ¬ (jsTrim t).length < 5)
    (hdup : ¬ (jsTrim t = (runTrace sysInit evts).ds.lastProcessedText ∧
        now - (runTrace sysInit evts).ds.lastProcessedTime < DEBOUNCE_TIME))
    (hstuck : ¬ STUCK_TIMEOUT < now - (runTrace sysInit evts).ds.lastProcessedTime) :
    (runTrace sysInit evts).inflight ≤ 1
      ∧ handleArrival (runTrace sysInit evts).ds t now =
          ({ (runTrace sysInit evts).ds with
              processingQueue := (runTrace sysInit evts).ds.processingQueue ++ [jsTrim t] },
            .enqueue)
      ∧ (handleCompletion (runTrace sysInit evts).ds).2 =
          (runTrace sysInit evts).ds.processingQueue.head?
      ∧ (handleCompletion (runTrace sysInit evts).ds).1.processingQueue =
          (runTrace sysInit evts).ds.processingQueue.tail
      ∧ (handleCompletion (runTrace sysInit evts).ds).1.isCurrentlyProcessing = false := by
  have hinv : inflightInv (runTrace sysInit evts) :=
    runTrace_inv evts sysInit (by simp [inflightInv, sysInit, dispatchInit]) hadm
  rw [inflightInv, hproc] at hinv
  simp at hinv
  refine ⟨by omega, ?_, (handleCompletion_spec _).1, (handleCompletion_spec _).2.1,
    (handleCompletion_spec _).2.2⟩
  rcases handleArrival_spec (runTrace sysInit evts).ds t now with
    ⟨h1, _⟩ | ⟨_, h2, _⟩ | ⟨_, _, _, heq⟩ | ⟨_, _, h3, _, _⟩ | ⟨_, _, h3, _, _⟩
  · exact absurd h1 hlen
  · exact absurd h2 hdup
  · exact heq
  · exact absurd ⟨hproc, hstuck⟩ h3
  · exact absurd ⟨hproc, hstuck⟩ h3

theorem c1_single_flight_fifo_witness :
    (runTrace sysInit [.arrive "what is a hashmap, please explain" 1000]).inflight ≤ 1
      ∧ handleArrival (runTrace sysInit [.arrive "what is a hashmap, please explain" 1000]).ds
            "how would you optimize this code" 2000 =
          ({ (runTrace sysInit [.arrive "what is a hashmap, please explain" 1000]).ds with
              processingQueue :=
                (runTrace sysInit
                      [.arrive "what is a hashmap, please explain" 1000]).ds.processingQueue ++
                  [jsTrim "how would you optimize this code"] },
            .enqueue)
      ∧ (handleCompletion
            (runTrace sysInit [.arrive "what is a hashmap, please explain" 1000]).ds).2 =
          (runTrace sysInit
              [.arrive "what is a hashmap, please explain" 1000]).ds.processingQueue.head?
      ∧ (handleCompletion
            (runTrace sysInit
              [.arrive "what is a hashmap, please explain" 1000]).ds).1.processingQueue =
          (runTrace sysInit
              [.arrive "what is a hashmap, please explain" 1000]).ds.processingQueue.tail
      ∧ (handleCompletion
            (runTrace sysInit
              [.arrive "what is a hashmap, please explain" 1000]).ds).1.isCurrentlyProcessing =
          false :=
  c1_single_flight_fifo [.arrive "what is a hashmap, please explain" 1000]
    "how would you optimize this code" 2000 (by decide) (by decide) (by decide)
    (by decide) (by decide)

/-- C6: an arrival finding the processing lock held for longer than the
30-second stuck-call timeout is never queued behind the hung call: the
handler forcibly clears the lock and proceeds — an invalid transcript just
drops (leaving the lock free), a valid one immediately starts a fresh
backend call, whose completion then dispatches the head of the untouched
queue.  A hung call therefore cannot permanently stall the queue. -/
theorem c6_stuck_lock_recovery
    (s : DispatchState) (t : String) (now : Int)
    (hproc : s.isCurrentlyProcessing = true)
    (hstuck : STUCK_TIMEOUT < now - s.lastProcessedTime)
    (hlen : ¬ (jsTrim t).length < 5)
    (hdup : ¬ (jsTrim t = s.lastProcessedText ∧ now - s.lastProcessedTime < DEBOUNCE_TIME)) :
    (handleArrival s t now).2 ≠ .enqueue
      ∧ (handleArrival s t now).1.processingQueue = s.processingQueue
      ∧ (isValidInterviewQuestion (jsTrim t) = false →
          handleArrival s t now = ({ s with isCurrentlyProcessing := false }, .dropInvalid))
      ∧ (isValidInterviewQuestion (jsTrim t) = true →
          handleArrival s t now =
              ({ s with
                  isCurrentlyProcessing := true
                  lastProcessedText := jsTrim t
                  lastProcessedTime := now },
                .startCall (jsTrim t))
            ∧ (handleCompletion (handleArrival s t now).1).2 = s.processingQueue.head?) := by
  rcases handleArrival_spec s t now with
    ⟨h1, _⟩ | ⟨_, h2, _⟩ | ⟨_, _, h3, _⟩ | ⟨_, _, _, h4, heq⟩ | ⟨_, _, _, h4, heq⟩
  · exact absurd h1 hlen
  · exact absurd h2 hdup
  · exact absurd hstuck h3.2
  · refine ⟨by simp [heq], by simp [heq], fun _ => heq, fun hv => ?_⟩
    rw [h4] at hv
    exact absurd hv (by simp)
  · refine ⟨by simp [heq], by simp [heq], fun hv => ?_, fun _ => ⟨heq, ?_⟩⟩
    · rw [h4] at hv
      exact absurd hv (by simp)
    · rw [heq]
      exact (handleCompletion_spec _).1

/-- Dispatch state with a hung call (lock held since time 1000) and two
queued questions. -/
def c6State : DispatchState :=
  ⟨"what is a stack", 1000, true, ["explain hashmaps to me please", "what is a queue"]⟩

theorem c6_stuck_lock_recovery_witness :
    (handleArrival c6State "how does quicksort work" 40000).2 ≠ .enqueue
      ∧ (handleArrival c6State "how does quicksort work" 40000).1.processingQueue =
          c6State.processingQueue
      ∧ (isValidInterviewQuestion (jsTrim "how does quicksort work") = false →
          handleArrival c6State "how does quicksort work" 40000 =
            ({ c6State with isCurrentlyProcessing := false }, .dropInvalid))
      ∧ (isValidInterviewQuestion (jsTrim "how does quicksort work") = true →
          handleArrival c6State "how does quicksort work" 40000 =
              ({ c6State with
                  isCurrentlyProcessing := true
                  lastProcessedText := jsTrim "how does quicksort work"
                  lastProcessedTime := 40000 },
                .startCall (jsTrim "how does quicksort work"))
            ∧ (handleCompletion (handleArrival c6State "how does quicksort work" 40000).1).2 =
                c6State.processingQueue.head?) :=
  c6_stuck_lock_recovery c6State "how does quicksort work" 40000 rfl (by decide) (by decide)
    (by decide)

/-- C10: a transcript whose trimmed lower-cased text contains any phrase of
the candidate-indicator list is never forwarded to the AI backend: it fails
`isValidInterviewQuestion` outright (the candidate check precedes both the
interviewer-pattern check and the trailing question-mark check), so no
arrival — whatever the dispatch state or clock — produces a `startCall`. -/
theorem c10_candidate_speech_never_dispatched (t : String) (s : DispatchState) (now : Int)
    (hcand : candidateIndicators.any (fun p => jsIncludes (jsToLower (jsTrim t)) p) = true) :
    isValidInterviewQuestion (jsTrim t) = false
      ∧ startsBackendCall (handleArrival s t now).2 = false := by
  have h1 : isValidInterviewQuestion (jsTrim t) = false := by
    unfold isValidInterviewQuestion
    rw [jsTrim_idem]
    by_cases hl : (jsTrim t).length < 10
    · simp [hl]
    · simp [hl, hcand]
  refine ⟨h1, ?_⟩
  rcases handleArrival_spec s t now with
    ⟨_, heq⟩ | ⟨_, _, heq⟩ | ⟨_, _, _, heq⟩ | ⟨_, _, _, _, heq⟩ | ⟨_, _, _, h4, _⟩
  · rw [heq]; rfl
  · rw [heq]; rfl
  · rw [heq]; rfl
  · rw [heq]; rfl
  · rw [h4] at h1
    exact absurd h1 (by simp)

theorem c10_candidate_speech_never_dispatched_witness :
    isValidInterviewQuestion (jsTrim "i think this is how you solve it?") = false
      ∧ startsBackendCall
          (handleArrival dispatchInit "i think this is how you solve it?" 777).2 = false :=
  c10_candidate_speech_never_dispatched "i think this is how you solve it?" dispatchInit 777
    (by decide)

end Dispatch

namespace Seg

open JsStr

theorem singleton_isSuffixOf_eq (c : Char) (l : List Char) :
    [c].isSuffixOf l =
      match l.getLast? with
      | some d => c == d
      | none => false := by
  rw [List.isSuffixOf, List.getLast?_eq_head?_reverse]
  cases l.reverse with
  | nil => rfl
  | cons d ds => simp [List.isPrefixOf]

theorem endsWithTerminalPunct_eq_suffix (t : String) :
    endsWithTerminalPunct t =
      (jsEndsWith t "." || jsEndsWith t "!" || jsEndsWith t "?") := by
  rw [endsWithTerminalPunct]
  simp only [jsEndsWith, String.data]
  rw [singleton_isSuffixOf_eq, singleton_isSuffixOf_eq, singleton_isSuffixOf_eq]
  cases t.data.getLast? with
  | none => rfl
  | some d =>
    apply Bool.eq_iff_iff.mpr
    simp only [Bool.or_eq_true, decide_eq_true_eq, beq_iff_eq]
    constructor
    · rintro ((h | h) | h) <;> simp [h]
    · rintro ((h | h) | h) <;> simp [← h]

/-- C4 counterexample: `"Why?"` ends in terminal punctuation, yet the
completion classifier returns `false` because the trimmed text is shorter
than the 10-character minimum — the claim's "true if the text ends in
terminal punctuation" fails without a length precondition. -/
theorem c4_terminal_punct_counterexample :
    jsEndsWith (jsTrim "Why?") "?" = true
      ∧ endsWithTerminalPunct (jsTrim "Why?") = true
      ∧ isQuestionComplete "Why?" = false := by
  decide

/-- C4 amended specification, written from the claim's words plus the
length floor the counterexample forces: the classifier accepts exactly the
texts whose trimmed form has at least `MIN_QUESTION_LENGTH` characters and
either ends in terminal punctuation or is longer than 50 characters, looks
like a question, and matches the subject+modal/verb regex. -/
def specQuestionComplete (text : String) : Bool :=
  let t := jsTrim text
  decide (MIN_QUESTION_LENGTH ≤ t.length) &&
    (jsEndsWith t "." || jsEndsWith t "!" || jsEndsWith t "?" ||
      (decide (50 < t.length) && isLikelyQuestion t && hasSubjectVerb t))

/-- C4 (amended): the completion classifier of the source agrees with the
amended specification on every text. -/
theorem c4_complete_characterization (text : String) :
    isQuestionComplete text = specQuestionComplete text := by
  rw [isQuestionComplete, specQuestionComplete]
  by_cases hl : (jsTrim text).length < MIN_QUESTION_LENGTH
  · have hnle : ¬ MIN_QUESTION_LENGTH ≤ (jsTrim text).length := not_le.mpr hl
    simp [hl, hnle]
  · simp only [if_neg hl]
    rw [endsWithTerminalPunct_eq_suffix]
    have hge : MIN_QUESTION_LENGTH ≤ (jsTrim text).length := Nat.le_of_not_lt hl
    simp only [hge, decide_eq_true_eq, decide_True, Bool.true_and]
    cases h1 : jsEndsWith (jsTrim text) "." <;>
      cases h2 : jsEndsWith (jsTrim text) "!" <;>
      cases h3 : jsEndsWith (jsTrim text) "?" <;>
      simp_all [Bool.and_assoc]

end Seg

namespace Conv

/-- One message of the conversation history (`{role, content}`). -/
structure ConvTurn where
  role : String
  content : String
  deriving DecidableEq

/-- `ProcessingHelper.maxHistoryLength` (10 messages = 10 exchanges kept). -/
def maxHistoryLength : Nat := 10

/-- Embedding of the history update of `processTranscriptionWithOpenAI`
(and identically `processTranscriptionWithGemini`): push the user/assistant
pair, then, when the history exceeds `maxHistoryLength * 2` messages, keep
the first exchange (`slice(0, 2)`) and the most recent
`maxHistoryLength * 2 - 2` messages (`slice(-(maxHistoryLength * 2 - 2))`). -/
def appendExchange (history : List ConvTurn) (userText assistantText : String) :
    List ConvTurn :=
  let h2 := history ++ [⟨"user", userText⟩, ⟨"assistant", assistantText⟩]
  if maxHistoryLength * 2 < h2.length then
    h2.take 2 ++ h2.drop (h2.length - (maxHistoryLength * 2 - 2))
  else h2

/-- A conversation built by successive successful exchanges starting from
the empty history. -/
def runConversation (exchanges : List (String × String)) : List ConvTurn :=
  exchanges.foldl (fun h p => appendExchange h p.1 p.2) []

theorem appendExchange_length_le (h : List ConvTurn) (u a : String) :
    (appendExchange h u a).length ≤ maxHistoryLength * 2 := by
  rw [appendExchange]
  split
  · rename_i hlen
    simp only [List.length_append, List.length_take, List.length_drop] at *
    simp only [maxHistoryLength] at *
    omega
  · rename_i hlen
    omega

theorem foldl_appendExchange_length_le (exchanges : List (String × String))
    (h : List ConvTurn) (hle : h.length ≤ maxHistoryLength * 2) :
    (exchanges.foldl (fun h p => appendExchange h p.1 p.2) h).length ≤
      maxHistoryLength * 2 := by
  induction exchanges generalizing h with
  | nil => exact hle
  | cons p ps ih => exact ih _ (appendExchange_length_le h p.1 p.2)

/-- C7: the conversation history never exceeds the `maxHistoryLength * 2`
cap after any sequence of appended exchanges, and whenever an append
triggers trimming the result keeps exactly the first pair and the most
recent `maxHistoryLength * 2 - 2` messages of the pushed history — messages
are removed only from the middle. -/
theorem c7_history_cap_and_middle_trim
    (exchanges : List (String × String)) (h : List ConvTurn) (u a : String)
    (hover : maxHistoryLength * 2 <
      (h ++ [ConvTurn.mk "user" u, ConvTurn.mk "assistant" a]).length) :
    (runConversation exchanges).length ≤ maxHistoryLength * 2
      ∧ appendExchange h u a =
          (h ++ [ConvTurn.mk "user" u, ConvTurn.mk "assistant" a]).take 2 ++
            (h ++ [ConvTurn.mk "user" u, ConvTurn.mk "assistant" a]).drop
              ((h ++ [ConvTurn.mk "user" u, ConvTurn.mk "assistant" a]).length - (maxHistoryLength * 2 - 2))
      ∧ (appendExchange h u a).take 2 = h.take 2
      ∧ (appendExchange h u a).length = maxHistoryLength * 2
      ∧ (appendExchange h u a).drop 2 =
          (h ++ [ConvTurn.mk "user" u, ConvTurn.mk "assistant" a]).drop
            ((h ++ [ConvTurn.mk "user" u, ConvTurn.mk "assistant" a]).length - (maxHistoryLength * 2 - 2)) := by
  have hlen2 : (2 : Nat) ≤ h.length := by
    simp [maxHistoryLength] at hover
    omega
  have heq : appendExchange h u a =
      (h ++ [ConvTurn.mk "user" u, ConvTurn.mk "assistant" a]).take 2 ++
        (h ++ [ConvTurn.mk "user" u, ConvTurn.mk "assistant" a]).drop
          ((h ++ [ConvTurn.mk "user" u, ConvTurn.mk "assistant" a]).length - (maxHistoryLength * 2 - 2)) := by
    rw [appendExchange, if_pos hover]
  have htake2len :
      ((h ++ [ConvTurn.mk "user" u, ConvTurn.mk "assistant" a]).take 2).length = 2 := by
    simp only [List.length_take, List.length_append, List.length_cons]
    omega
  refine ⟨foldl_appendExchange_length_le exchanges [] (by simp), heq, ?_, ?_, ?_⟩
  · rw [heq]
    rw [List.take_append_of_le_length (by omega : (2 : Nat) ≤
      ((h ++ [ConvTurn.mk "user" u, ConvTurn.mk "assistant" a]).take 2).length)]
    rw [List.take_take]
    simp only [min_self]
    exact List.take_append_of_le_length hlen2
  · rw [heq]
    simp only [List.length_append, List.length_take, List.length_drop,
      List.length_cons, maxHistoryLength] at *
    omega
  · rw [heq, List.drop_append_eq_append_drop, htake2len]
    simp

/-- A full history of ten exchanges (20 messages). -/
def c7History : List ConvTurn := List.replicate 20 ⟨"user", "q"⟩

/-- Eleven exchanges, one more than the cap keeps. -/
def c7Exchanges : List (String × String) :=
  [("q1", "a1"), ("q2", "a2"), ("q3", "a3"), ("q4", "a4"), ("q5", "a5"), ("q6", "a6"),
   ("q7", "a7"), ("q8", "a8"), ("q9", "a9"), ("q10", "a10"), ("q11", "a11")]

theorem c7_history_cap_and_middle_trim_witness :
    (runConversation c7Exchanges).length ≤ maxHistoryLength * 2
      ∧ appendExchange c7History "q21" "a21" =
          (c7History ++ [ConvTurn.mk "user" "q21", ConvTurn.mk "assistant" "a21"]).take 2 ++
            (c7History ++ [ConvTurn.mk "user" "q21", ConvTurn.mk "assistant" "a21"]).drop
              ((c7History ++
                  [ConvTurn.mk "user" "q21", ConvTurn.mk "assistant" "a21"]).length -
                (maxHistoryLength * 2 - 2))
      ∧ (appendExchange c7History "q21" "a21").take 2 = c7History.take 2
      ∧ (appendExchange c7History "q21" "a21").length = maxHistoryLength * 2
      ∧ (appendExchange c7History "q21" "a21").drop 2 =
          (c7History ++ [ConvTurn.mk "user" "q21", ConvTurn.mk "assistant" "a21"]).drop
            ((c7History ++
                [ConvTurn.mk "user" "q21", ConvTurn.mk "assistant" "a21"]).length -
              (maxHistoryLength * 2 - 2)) :=
  c7_history_cap_and_middle_trim c7Exchanges c7History "q21" "a21" (by decide)

end Conv

namespace Conv

/-- Lowercase hexadecimal digit, as emitted by `JSON.stringify` in
`\u00xx` escapes. -/
def hexDigitChar (n : Nat) : Char :=
  if n < 10 then Char.ofNat (48 + n) else Char.ofNat (87 + n)

/-- JSON string escaping of one character, as performed by
`JSON.stringify`: quote, backslash and the short control escapes, then
`\u00xx` for the remaining control characters, all other characters
verbatim. -/
def escChar (c : Char) : List Char :=
  if c = '"' then ['\\', '"']
  else if c = '\\' then ['\\', '\\']
  else if c = '\x08' then ['\\', 'b']
  else if c = '\x09' then ['\\', 't']
  else if c = '\x0a' then ['\\', 'n']
  else if c = '\x0c' then ['\\', 'f']
  else if c = '\x0d' then ['\\', 'r']
  else if c.toNat < 32 then
    ['\\', 'u', '0', '0', hexDigitChar (c.toNat / 16), hexDigitChar (c.toNat % 16)]
  else [c]

/-- Escape a whole string body. -/
def escStringL (l : List Char) : List Char := l.flatMap escChar

/-- A JSON string literal (quotes included). -/
def encString (s : String) : String := ⟨'"' :: (escStringL s.data ++ ['"'])⟩

/-- One `{role, content}` object as `JSON.stringify(h, null, 2)` prints it
at depth 1 (keys in insertion order `role`, `content`). -/
def encodeTurn (t : ConvTurn) : String :=
  "\x7b\n    \"role\": " ++ encString t.role ++ ",\n    \"content\": " ++
    encString t.content ++ "\n  \x7d"

/-- Array items joined by `",\n  "`. -/
def joinItems : List String → String
  | [] => ""
  | [x] => x
  | x :: xs => x ++ ",\n  " ++ joinItems xs

/-- Embedding of `saveConversationHistory`: the file contents
`JSON.stringify(this.conversationHistory, null, 2)` written to
`conversation_history.json`. -/
def saveConversationHistory (h : List ConvTurn) : String :=
  match h with
  | [] => "[]"
  | _ => "[\n  " ++ joinItems (h.map encodeTurn) ++ "\n]"

/-- JSON structural whitespace accepted by `JSON.parse`. -/
def isJsonWs (c : Char) : Bool := c = ' ' || c = '\t' || c = '\n' || c = '\r'

/-- Skip structural whitespace. -/
def skipWs (l : List Char) : List Char := l.dropWhile isJsonWs

/-- Value of one hexadecimal digit. -/
def hexVal (c : Char) : Option Nat :=
  if '0' ≤ c ∧ c ≤ '9' then some (c.toNat - 48)
  else if 'a' ≤ c ∧ c ≤ 'f' then some (c.toNat - 87)
  else if 'A' ≤ c ∧ c ≤ 'F' then some (c.toNat - 55)
  else none

/-- Decoding of a short escape `\c`. -/
def unescapeChar (c : Char) : Option Char :=
  if c = '"' then some '"'
  else if c = '\\' then some '\\'
  else if c = '/' then some '/'
  else if c = 'b' then some '\x08'
  else if c = 'f' then some '\x0c'
  else if c = 'n' then some '\x0a'
  else if c = 'r' then some '\x0d'
  else if c = 't' then some '\x09'
  else none

/-- JSON string-literal body parser (the opening quote has been consumed):
returns the decoded content and the input after the closing quote. -/
def parseStringL : List Char → Option (List Char × List Char)
  | [] => none
  | c :: rest =>
    if c = '"' then some ([], rest)
    else if c = '\\' then
      match rest with
      | 'u' :: h1 :: h2 :: h3 :: h4 :: rest2 =>
        match hexVal h1, hexVal h2, hexVal h3, hexVal h4 with
        | some a, some b, some cc, some d =>
          (parseStringL rest2).map
            (fun r => (Char.ofNat (((a * 16 + b) * 16 + cc) * 16 + d) :: r.1, r.2))
        | _, _, _, _ => none
      | e :: rest2 =>
        match unescapeChar e with
        | some u => (parseStringL rest2).map (fun r => (u :: r.1, r.2))
        | none => none
      | [] => none
    else (parseStringL rest).map (fun r => (c :: r.1, r.2))

/-- Consume one expected character. -/
def expectChar (c : Char) (l : List Char) : Option (List Char) :=
  match l with
  | d :: rest => if d = c then some rest else none
  | [] => none

/-- Skip whitespace and parse a JSON string literal. -/
def parseQuotedString (l : List Char) : Option (List Char × List Char) :=
  match skipWs l with
  | '"' :: rest => parseStringL rest
  | _ => none

/-- Parse one `{"role": r, "content": c}` object of the persistence blob. -/
def parseTurnObj (l : List Char) : Option (ConvTurn × List Char) :=
  match expectChar '\x7b' (skipWs l) with
  | none => none
  | some l1 =>
    match parseQuotedString l1 with
    | none => none
    | some (k1, l2) =>
      if k1 = ("role" : String).data then
        match expectChar ':' (skipWs l2) with
        | none => none
        | some l3 =>
          match parseQuotedString l3 with
          | none => none
          | some (v1, l4) =>
            match expectChar ',' (skipWs l4) with
            | none => none
            | some l5 =>
              match parseQuotedString l5 with
              | none => none
              | some (k2, l6) =>
                if k2 = ("content" : String).data then
                  match expectChar ':' (skipWs l6) with
                  | none => none
                  | some l7 =>
                    match parseQuotedString l7 with
                    | none => none
                    | some (v2, l8) =>
                      match expectChar '\x7d' (skipWs l8) with
                      | none => none
                      | some l9 => some (⟨⟨v1⟩, ⟨v2⟩⟩, l9)
                else none
      else none

/-- Parse a non-empty comma-separated sequence of turn objects followed by
the closing bracket; `fuel` bounds the recursion by the input length. -/
def parseTurnSeq : Nat → List Char → Option (List ConvTurn × List Char)
  | 0, _ => none
  | fuel + 1, l =>
    match parseTurnObj l with
    | none => none
    | some (t, r) =>
      match skipWs r with
      | ',' :: r2 =>
        match parseTurnSeq fuel r2 with
        | some (ts, r3) => some (t :: ts, r3)
        | none => none
      | ']' :: r2 => some ([t], r2)
      | _ => none

/-- Embedding of `loadConversationHistory`: `JSON.parse` of the persisted
blob (restricted to the wire format the save path produces: an array of
`{role, content}` string records) assigned directly to the history;
`none` models the `catch` branch taken on malformed input. -/
def loadConversationHistory (s : String) : Option (List ConvTurn) :=
  match skipWs s.data with
  | '[' :: rest =>
    match skipWs rest with
    | ']' :: r2 => if (skipWs r2).isEmpty then some [] else none
    | _ =>
      match parseTurnSeq (s.data.length + 1) rest with
      | some (ts, r) => if (skipWs r).isEmpty then some ts else none
      | none => none
  | _ => none

end Conv

namespace Conv

theorem hexVal_hexDigitChar : ∀ n : Nat, n < 16 → hexVal (hexDigitChar n) = some n := by
  decide

theorem parseStringL_cons_quote (rest : List Char) :
    parseStringL ('"' :: rest) = some ([], rest) := by
  rw [parseStringL.eq_def]
  dsimp only
  simp

theorem parseStringL_cons_other (c : Char) (l : List Char)
    (h1 : ¬ c = '"') (h2 : ¬ c = '\\') :
    parseStringL (c :: l) = (parseStringL l).map (fun r => (c :: r.1, r.2)) := by
  rw [parseStringL.eq_def]
  dsimp only
  rw [if_neg h1, if_neg h2]

theorem parseStringL_escChar (c : Char) (l : List Char) :
    parseStringL (escChar c ++ l) =
      (parseStringL l).map (fun r => (c :: r.1, r.2)) := by
  rw [escChar]
  by_cases h1 : c = '"'
  · subst h1
    rw [if_pos rfl]
    simp only [List.cons_append, List.nil_append]
    rw [parseStringL.eq_def]
    dsimp only
    simp [unescapeChar]
  · rw [if_neg h1]
    by_cases h2 : c = '\\'
    · subst h2
      rw [if_pos rfl]
      simp only [List.cons_append, List.nil_append]
      rw [parseStringL.eq_def]
      dsimp only
      simp [unescapeChar]
    · rw [if_neg h2]
      by_cases h3 : c = '\x08'
      · subst h3
        rw [if_pos rfl]
        simp only [List.cons_append, List.nil_append]
        rw [parseStringL.eq_def]
        dsimp only
        simp [unescapeChar]
      · rw [if_neg h3]
        by_cases h4 : c = '\x09'
        · subst h4
          rw [if_pos rfl]
          simp only [List.cons_append, List.nil_append]
          rw [parseStringL.eq_def]
          dsimp only
          simp [unescapeChar]
        · rw [if_neg h4]
          by_cases h5 : c = '\x0a'
          · subst h5
            rw [if_pos rfl]
            simp only [List.cons_append, List.nil_append]
            rw [parseStringL.eq_def]
            dsimp only
            simp [unescapeChar]
          · rw [if_neg h5]
            by_cases h6 : c = '\x0c'
            · subst h6
              rw [if_pos rfl]
              simp only [List.cons_append, List.nil_append]
              rw [parseStringL.eq_def]
              dsimp only
              simp [unescapeChar]
            · rw [if_neg h6]
              by_cases h7 : c = '\x0d'
              · subst h7
                rw [if_pos rfl]
                simp only [List.cons_append, List.nil_append]
                rw [parseStringL.eq_def]
                dsimp only
                simp [unescapeChar]
              · rw [if_neg h7]
                by_cases h8 : c.toNat < 32
                · rw [if_pos h8]
                  have hd1 : hexVal (hexDigitChar (c.toNat / 16)) = some (c.toNat / 16) :=
                    hexVal_hexDigitChar _ (by omega)
                  have hd0 : hexVal (hexDigitChar (c.toNat % 16)) = some (c.toNat % 16) :=
                    hexVal_hexDigitChar _ (by omega)
                  simp only [List.cons_append, List.nil_append]
                  rw [parseStringL.eq_def]
                  dsimp only
                  rw [if_neg (by decide : ¬ ('\\' : Char) = '"'),
                    if_pos (rfl : ('\\' : Char) = '\\')]
                  simp only []
                  rw [show hexVal '0' = some 0 from rfl, hd1, hd0]
                  simp only []
                  have harith : c.toNat / 16 * 16 + c.toNat % 16 = c.toNat := by omega
                  simp only [Nat.zero_mul, Nat.zero_add, Nat.add_zero, harith,
                    Char.ofNat_toNat]
                · rw [if_neg h8]
                  rw [List.cons_append, List.nil_append]
                  exact parseStringL_cons_other c l h1 h2

theorem parseStringL_escStringL (l : List Char) (rest : List Char) :
    parseStringL (escStringL l ++ '"' :: rest) = some (l, rest) := by
  induction l with
  | nil =>
    show parseStringL ('"' :: rest) = some ([], rest)
    exact parseStringL_cons_quote rest
  | cons c cs ih =>
    rw [escStringL, List.flatMap_cons, List.append_assoc]
    rw [show (cs.flatMap escChar : List Char) = escStringL cs from rfl]
    rw [parseStringL_escChar, ih]
    rfl

end Conv

namespace Conv

theorem skipWs_ws_append (w l : List Char) (hw : w.all isJsonWs = true) :
    skipWs (w ++ l) = skipWs l := by
  induction w with
  | nil => rfl
  | cons c cs ih =>
    simp only [List.all_cons, Bool.and_eq_true] at hw
    rw [List.cons_append, skipWs, List.dropWhile_cons, if_pos hw.1]
    exact ih hw.2

theorem skipWs_cons_nonWs (c : Char) (l : List Char) (hc : isJsonWs c = false) :
    skipWs (c :: l) = c :: l := by
  rw [skipWs, List.dropWhile_cons, if_neg (by simp [hc])]

theorem parseQuotedString_enc (w : List Char) (s : String) (rest : List Char)
    (hw : w.all isJsonWs = true) :
    parseQuotedString (w ++ (encString s).data ++ rest) = some (s.data, rest) := by
  have hx : skipWs (w ++ (encString s).data ++ rest) =
      '"' :: (escStringL s.data ++ '"' :: rest) := by
    rw [List.append_assoc, skipWs_ws_append _ _ hw]
    rw [show (encString s).data = '"' :: (escStringL s.data ++ ['"']) from rfl]
    rw [List.cons_append, skipWs_cons_nonWs _ _ (by decide)]
    rw [List.append_assoc, List.singleton_append]
  rw [parseQuotedString, hx]
  exact parseStringL_escStringL s.data rest

theorem parseQuotedString_enc_assoc (w : List Char) (s : String) (rest : List Char)
    (hw : w.all isJsonWs = true) :
    parseQuotedString (w ++ ((encString s).data ++ rest)) = some (s.data, rest) := by
  rw [← List.append_assoc]
  exact parseQuotedString_enc w s rest hw

theorem parseQuotedString_enc_space (s : String) (rest : List Char) :
    parseQuotedString (' ' :: ((encString s).data ++ rest)) = some (s.data, rest) := by
  rw [show (' ' :: ((encString s).data ++ rest) : List Char) =
    [' '] ++ (encString s).data ++ rest by simp]
  exact parseQuotedString_enc [' '] s rest (by decide)

theorem parseTurnObj_enc (t : ConvTurn) (w rest : List Char)
    (hw : w.all isJsonWs = true) :
    parseTurnObj (w ++ (encodeTurn t).data ++ rest) = some (t, rest) := by
  have hx : w ++ (encodeTurn t).data ++ rest =
      w ++ '\x7b' :: (['\n', ' ', ' ', ' ', ' '] ++ ((encString "role").data ++
        (':' :: ' ' :: ((encString t.role).data ++
          (',' :: (['\n', ' ', ' ', ' ', ' '] ++ ((encString "content").data ++
            (':' :: ' ' :: ((encString t.content).data ++
              (['\n', ' ', ' '] ++ ('\x7d' :: rest))))))))))) := by
    simp only [encodeTurn, String.data_append, List.append_assoc]
    rfl
  rw [hx, parseTurnObj]
  rw [skipWs_ws_append _ _ hw, skipWs_cons_nonWs _ _ (by decide)]
  simp only [expectChar, if_pos]
  rw [parseQuotedString_enc_assoc _ _ _ (by decide)]
  simp only []
  simp only [if_true]
  rw [skipWs_cons_nonWs _ _ (by decide)]
  simp only [if_pos]
  rw [parseQuotedString_enc_space]
  simp only []
  rw [skipWs_cons_nonWs _ _ (by decide)]
  simp only [if_pos]
  rw [parseQuotedString_enc_assoc _ _ _ (by decide)]
  simp only [if_true]
  rw [skipWs_cons_nonWs _ _ (by decide)]
  simp only [if_pos]
  rw [parseQuotedString_enc_space]
  simp only []
  rw [skipWs_ws_append _ _ (by decide), skipWs_cons_nonWs _ _ (by decide)]
  simp only [if_pos]


theorem encodeTurn_head (t : ConvTurn) : ∃ u, (encodeTurn t).data = '\x7b' :: u :=
  ⟨_, rfl⟩

theorem joinItems_head (t : ConvTurn) (ts : List ConvTurn) :
    ∃ u, (joinItems ((t :: ts).map encodeTurn)).data = '\x7b' :: u := by
  cases ts with
  | nil => exact ⟨_, rfl⟩
  | cons t2 ts2 =>
    obtain ⟨u, hu⟩ := encodeTurn_head t
    refine ⟨u ++ (",\n  " ++ joinItems ((t2 :: ts2).map encodeTurn)).data, ?_⟩
    rw [show joinItems ((t :: t2 :: ts2).map encodeTurn) =
      encodeTurn t ++ (",\n  " ++ joinItems ((t2 :: ts2).map encodeTurn)) from by
        simp [joinItems, String.append_assoc]]
    rw [String.data_append, hu]
    rfl

theorem joinItems_length_ge (ts : List ConvTurn) :
    ts.length ≤ (joinItems (ts.map encodeTurn)).data.length := by
  induction ts with
  | nil => simp [joinItems]
  | cons t ts ih =>
    cases ts with
    | nil =>
      obtain ⟨u, hu⟩ := encodeTurn_head t
      simp [joinItems, hu]
    | cons t2 ts2 =>
      obtain ⟨u, hu⟩ := encodeTurn_head t
      rw [show joinItems ((t :: t2 :: ts2).map encodeTurn) =
        encodeTurn t ++ (",\n  " ++ joinItems ((t2 :: ts2).map encodeTurn)) from by
          simp [joinItems, String.append_assoc]]
      rw [List.length_cons]
      rw [String.data_append, String.data_append]
      simp only [List.length_append]
      have h2 := ih
      simp only [List.length_cons] at h2 ⊢
      rw [hu]
      simp only [List.length_cons]
      omega

theorem parseTurnSeq_join (ts : List ConvTurn) (t : ConvTurn) (fuel : Nat)
    (w z rest : List Char)
    (hw : w.all isJsonWs = true) (hz : z.all isJsonWs = true)
    (hfuel : ts.length < fuel) :
    parseTurnSeq fuel
        (w ++ ((joinItems ((t :: ts).map encodeTurn)).data ++ (z ++ ']' :: rest))) =
      some (t :: ts, rest) := by
  induction ts generalizing t fuel w with
  | nil =>
    cases fuel with
    | zero => omega
    | succ f =>
      rw [parseTurnSeq]
      rw [show joinItems ([t].map encodeTurn) = encodeTurn t from rfl]
      rw [← List.append_assoc]
      rw [parseTurnObj_enc t w _ hw]
      simp only []
      rw [skipWs_ws_append _ _ hz, skipWs_cons_nonWs _ _ (by decide)]
      rfl
  | cons t2 ts2 ih =>
    cases fuel with
    | zero => omega
    | succ f =>
      rw [parseTurnSeq]
      have hx : w ++ ((joinItems ((t :: t2 :: ts2).map encodeTurn)).data ++
            (z ++ ']' :: rest)) =
          w ++ (encodeTurn t).data ++
            (',' :: (['\n', ' ', ' '] ++
              ((joinItems ((t2 :: ts2).map encodeTurn)).data ++ (z ++ ']' :: rest)))) := by
        rw [show joinItems ((t :: t2 :: ts2).map encodeTurn) =
          encodeTurn t ++ (",\n  " ++ joinItems ((t2 :: ts2).map encodeTurn)) from by
            simp [joinItems, String.append_assoc]]
        simp only [String.data_append, List.append_assoc]
        rfl
      rw [hx, parseTurnObj_enc t w _ hw]
      simp only []
      rw [skipWs_cons_nonWs _ _ (by decide)]
      simp only []
      rw [ih t2 f ['\n', ' ', ' '] (by decide) (by simp only [List.length_cons] at hfuel; omega)]


/-- C9: the conversation-history persistence round-trip is the identity:
parsing the serialized blob written by `saveConversationHistory` yields
exactly the ordered turn sequence that was saved, for every history
(arbitrary role and content strings, including characters that need JSON
escaping). -/
theorem c9_save_load_roundtrip (h : List ConvTurn) :
    loadConversationHistory (saveConversationHistory h) = some h := by
  cases h with
  | nil => rfl
  | cons t ts =>
    obtain ⟨u, hu⟩ := joinItems_head t ts
    have hdata : (saveConversationHistory (t :: ts)).data =
        '[' :: (['\n', ' ', ' '] ++
          ((joinItems ((t :: ts).map encodeTurn)).data ++ (['\n'] ++ ']' :: []))) := by
      rw [show saveConversationHistory (t :: ts) =
        "[\n  " ++ joinItems ((t :: ts).map encodeTurn) ++ "\n]" from rfl]
      simp only [String.data_append, List.append_assoc]
      rfl
    have hfuel : ts.length <
        ('[' :: (['\n', ' ', ' '] ++
          ((joinItems ((t :: ts).map encodeTurn)).data ++ (['\n'] ++ ']' :: [])))).length + 1 := by
      have hj := joinItems_length_ge (t :: ts)
      simp only [List.length_cons, List.length_append] at hj ⊢
      omega
    rw [loadConversationHistory, hdata]
    rw [skipWs_cons_nonWs _ _ (by decide)]
    have hskip : skipWs (['\n', ' ', ' '] ++
        ((joinItems (List.map encodeTurn (t :: ts))).data ++ (['\n'] ++ [']']))) =
        (joinItems (List.map encodeTurn (t :: ts))).data ++ (['\n'] ++ [']']) := by
      rw [skipWs_ws_append _ _ (by decide)]
      conv_rhs => rw [hu, List.cons_append]
      rw [hu, List.cons_append, skipWs_cons_nonWs _ _ (by decide)]
    split
    · rename_i rest heq
      injection heq with h1 h2
      subst h2
      rw [hskip]
      split
      · rename_i r2 heq2
        rw [hu] at heq2
        simp at heq2
      · rename_i hx2
        rw [parseTurnSeq_join ts t _ _ _ _ (by decide) (by decide) ?hf]
        case hf =>
          simp only [List.length_cons, List.length_append] at hfuel ⊢
          omega
        rfl
    · rename_i hx2
      exact absurd rfl (hx2 _)

end Conv
